import Mathlib

/-!
Shallow embedding of the go-gameid differential-comparison harness
(`scripts/run_comparison_tests.py`, `scripts/compare_outputs.py`,
`scripts/create_test_samples.py`).

Python strings are modelled as Lean `String`, bytes as `Nat` (every byte a
`bytearray` stores is in `[0, 255]`), images as functions `Nat → Nat` with an
explicit size, and Python dicts as association lists built by
insert-with-overwrite (which is how every dict in the sources is built).
-/

/-! ## Python string primitives -/

/-- Whitespace recognized by Python's `str.strip()` (ASCII portion, which is
the only part the harness's values can contain). -/
def pyIsSpace (c : Char) : Bool :=
  c == ' ' || c == '\t' || c == '\n' || c == '\r' || c == '\x0b' || c == '\x0c'

/-- Python `str.strip()` on a character list: drop leading and trailing
whitespace. -/
def pyStripList (l : List Char) : List Char :=
  ((l.dropWhile pyIsSpace).reverse.dropWhile pyIsSpace).reverse

/-- Python `str.strip()`. -/
def pyStrip (s : String) : String :=
  String.mk (pyStripList s.data)

/-- Python `str.lower()` on one character (ASCII case mapping; the harness's
sentinel comparisons only involve ASCII letters). -/
def pyLowerChar (c : Char) : Char :=
  if 'A' ≤ c ∧ c ≤ 'Z' then Char.ofNat (c.toNat + 32) else c

/-- Python `str.lower()`. -/
def pyLower (s : String) : String :=
  String.mk (s.data.map pyLowerChar)

/-- Python `value.startswith("0x")`. -/
def startsWith0x (s : String) : Bool :=
  match s.data with
  | '0' :: 'x' :: _ => true
  | _ => false

/-- Split a character list at its first tab: `line.split('\t', 1)` when the
line contains a tab, `none` otherwise (mirrors the guard `'\t' in line`). -/
def splitFirstTab : List Char → Option (List Char × List Char)
  | [] => none
  | c :: rest =>
    if c = '\t' then some ([], rest)
    else
      match splitFirstTab rest with
      | none => none
      | some (a, b) => some (c :: a, b)

/-- Python `str.split(sep)` for a one-character separator (keeps empty
pieces; splitting the empty string yields one empty piece). -/
def splitChar (sep : Char) : List Char → List (List Char)
  | [] => [[]]
  | c :: rest =>
    let r := splitChar sep rest
    if c = sep then [] :: r
    else
      match r with
      | [] => [[c]]
      | h :: t => (c :: h) :: t

/-- Python truthiness of an `error` slot holding `None` or a string. -/
def pyTruthy : Option String → Bool
  | none => false
  | some s => !s.data.isEmpty

/-! ## Python dicts as association lists -/

/-- Python `d[k] = v`: overwrite the value in place if the key is present
(keeping its position), otherwise append the new binding at the end. -/
def dictInsert : List (String × String) → String → String → List (String × String)
  | [], k, v => [(k, v)]
  | p :: rest, k, v => if p.1 = k then (k, v) :: rest else p :: dictInsert rest k v

/-- Python `d.get(k)` returning the first (hence, for dicts, the only)
binding of the key. -/
def dictFind : List (String × String) → String → Option String
  | [], _ => none
  | p :: rest, k => if p.1 = k then some p.2 else dictFind rest k

/-- Python `k in d`. -/
def dictMem (m : List (String × String)) (k : String) : Bool :=
  (dictFind m k).isSome

/-- Python `d.get(k, default)`. -/
def dictGet (m : List (String × String)) (k : String) (dflt : String) : String :=
  (dictFind m k).getD dflt

/-! ## Output parsing (parse_output in compare_outputs.py; the identical
inline loops in run_comparison_tests.py run_go_gameid / run_python_gameid) -/

/-- One iteration of the parse loop: `if '\t' in line: key, value =
line.split('\t', 1); fields[key] = value` (a line without a tab is skipped). -/
def processLine (d : List (String × String)) (line : String) : List (String × String) :=
  match splitFirstTab line.data with
  | some (k, v) => dictInsert d (String.mk k) (String.mk v)
  | none => d

/-- Fold the parse loop over a list of lines, starting from the empty dict. -/
def parse_lines (lines : List String) : List (String × String) :=
  lines.foldl processLine []

/-- Full parser: `output.strip().split('\n')`, then the line loop. -/
def parse_output (output : String) : List (String × String) :=
  parse_lines ((splitChar '\n' (pyStripList output.data)).map String.mk)

/-! ## Run results (run_go_gameid / run_python_gameid in
run_comparison_tests.py) -/

/-- Parsed outcome of one implementation run: the `error` slot (Python
`None` or a message string) and the parsed field dict. The wall-clock
`duration` slot is not modelled (real time). -/
structure RunResult where
  error : Option String
  fields : List (String × String)
deriving DecidableEq

/-- Result construction in `run_go_gameid` (and, identically,
`run_python_gameid`) from the finished process's exit code, stdout and
stderr: on non-zero exit the error message is built from stderr and the
field dict is empty; on zero exit the stdout is parsed. -/
def run_go_gameid_result (returncode : Int) (stdout stderr : String) : RunResult :=
  if returncode ≠ 0 then
    { error := some ("Command failed: " ++ stderr), fields := [] }
  else
    { error := none, fields := parse_output stdout }

/-! ## Subprocess invocation configuration (run_command in
run_comparison_tests.py; the subprocess.run calls in compare_outputs.py) -/

/-- Arguments the harness passes to `subprocess.run`. A parameter the call
site omits keeps Python's default (`check=False`, `timeoutSeconds=None`). -/
structure SubprocessRunArgs where
  shell : Bool
  captureOutput : Bool
  text : Bool
  check : Bool
  timeoutSeconds : Option Nat
deriving DecidableEq

/-- run_command in run_comparison_tests.py calls
`subprocess.run(cmd, shell=True, capture_output=True, text=True, cwd=cwd)`;
no `check` and no `timeout` argument is passed. -/
def run_command_args : SubprocessRunArgs :=
  { shell := true, captureOutput := true, text := true, check := false,
    timeoutSeconds := none }

/-- run_python_gameid and run_go_gameid in compare_outputs.py call
`subprocess.run(cmd, capture_output=True, text=True, check=True)`;
no `timeout` argument is passed. -/
def compare_outputs_run_args : SubprocessRunArgs :=
  { shell := false, captureOutput := true, text := true, check := true,
    timeoutSeconds := none }

/-- A subprocess invocation is subject to a bounded wait exactly when a
timeout value is passed to `subprocess.run`. -/
def enforcesBoundedWait (a : SubprocessRunArgs) : Bool :=
  a.timeoutSeconds.isSome

/-! ## Output normalization (normalize_value in run_comparison_tests.py) -/

/-- normalize_value: strip; map a case-insensitive empty/none/null to the
sentinel; lower-case values starting with "0x"; otherwise return the
stripped value. -/
def normalize_value (value : String) : String :=
  let v := pyStrip value
  if pyLower v ∈ ["", "none", "null"] then "None"
  else if startsWith0x v then pyLower v
  else v

/-- Modelled from the spec's words (section 4.4) for refinement comparison:
trim surrounding whitespace; map case-insensitive empty, "none", "null" to
the canonical sentinel "None"; if the trimmed value begins with "0x",
lower-case the entire value; all other values pass through unchanged. -/
def normalize_spec (value : String) : String :=
  let t := pyStrip value
  if pyLower t = "" ∨ pyLower t = "none" ∨ pyLower t = "null" then "None"
  else if startsWith0x t then pyLower t
  else t

/-! ## Comparison (compare_results in run_comparison_tests.py) -/

/-- One recorded value difference (field name with both raw values). -/
structure FieldDiff where
  field : String
  go_value : String
  python_value : String
deriving DecidableEq

/-- The comparison dict built by compare_results. -/
structure Comparison where
  passed : Bool
  differences : List FieldDiff
  missing_in_go : List String
  missing_in_python : List String
  go_error : Option String
  python_error : Option String
deriving DecidableEq

/-- Body of the `for field in all_fields` loop in compare_results. -/
def compareStep (go py : List (String × String)) (c : Comparison) (field : String) :
    Comparison :=
  if dictMem go field = false then
    { c with missing_in_go := c.missing_in_go ++ [field], passed := false }
  else if dictMem py field = false then
    { c with missing_in_python := c.missing_in_python ++ [field], passed := false }
  else if (normalize_value (dictGet go field "") == normalize_value (dictGet py field ""))
      = false then
    { c with
      differences :=
        c.differences ++ [⟨field, dictGet go field "", dictGet py field ""⟩],
      passed := false }
  else c

/-- The field set `set(go_fields.keys()) | set(python_fields.keys())`
(iteration order of a Python set is unspecified; first-occurrence order is
used here). -/
def allFields (go py : List (String × String)) : List String :=
  ((go.map Prod.fst) ++ (py.map Prod.fst)).dedup

/-- compare_results: immediate failure (with no field diffing) when either
side's error slot is truthy, otherwise the field-by-field loop. -/
def compare_results (g p : RunResult) : Comparison :=
  let base : Comparison :=
    { passed := true, differences := [], missing_in_go := [],
      missing_in_python := [], go_error := g.error, python_error := p.error }
  if pyTruthy g.error && pyTruthy p.error then { base with passed := false }
  else if pyTruthy g.error || pyTruthy p.error then { base with passed := false }
  else (allFields g.fields p.fields).foldl (compareStep g.fields p.fields) base

/-- Per-field success condition of the comparison loop: present on both
sides with equal normalized values. -/
def stepOk (go py : List (String × String)) (f : String) : Bool :=
  dictMem go f && dictMem py f &&
    (normalize_value (dictGet go f "") == normalize_value (dictGet py f ""))

/-- Condition under which the loop records a value difference. -/
def diffPred (go py : List (String × String)) (f : String) : Bool :=
  dictMem go f && dictMem py f &&
    !(normalize_value (dictGet go f "") == normalize_value (dictGet py f ""))

/-- Condition under which the loop records the field as missing in Go. -/
def goMissing (go : List (String × String)) (f : String) : Bool := !dictMem go f

/-- Condition under which the loop records the field as missing in Python. -/
def pyMissing (go py : List (String × String)) (f : String) : Bool :=
  dictMem go f && !dictMem py f

/-- The difference record the loop appends for a diverging field. -/
def mkDiff (go py : List (String × String)) (f : String) : FieldDiff :=
  ⟨f, dictGet go f "", dictGet py f ""⟩

/-! ## Aggregation and reporting (generate_report / main in
run_comparison_tests.py; main in compare_outputs.py) -/

/-- Reference to one test case inside a missing-field bucket. -/
structure CaseRef where
  console : String
  file : String
deriving DecidableEq

/-- Entry of a field-difference bucket. -/
structure DiffCase where
  console : String
  file : String
  go_value : String
  python_value : String
deriving DecidableEq

/-- One element of the `results` list assembled in run_tests. -/
structure TestResult where
  console : String
  filepath : String
  go_result : RunResult
  python_result : RunResult
  comparison : Comparison
deriving DecidableEq

/-- The categorized failure buckets of generate_report. -/
structure Buckets where
  field_differences : List (String × List DiffCase)
  missing_go : List (String × List CaseRef)
  missing_python : List (String × List CaseRef)
  error_go : List TestResult
  error_python : List TestResult
  error_both : List TestResult
deriving DecidableEq

/-- Append an element to a keyed bucket, creating the key at the end if
absent (the `if field not in bucket: bucket[field] = []` pattern). -/
def bucketAdd {α : Type} : List (String × List α) → String → α → List (String × List α)
  | [], k, x => [(k, [x])]
  | (k', xs) :: rest, k, x =>
    if k' = k then (k', xs ++ [x]) :: rest else (k', xs) :: bucketAdd rest k x

/-- The error-case classification at the end of generate_report's loop:
both errors, else Go-only, else Python-only. -/
def errorBucketStep (b : Buckets) (r : TestResult) : Buckets :=
  if pyTruthy r.go_result.error && pyTruthy r.python_result.error then
    { b with error_both := b.error_both ++ [r] }
  else if pyTruthy r.go_result.error then
    { b with error_go := b.error_go ++ [r] }
  else if pyTruthy r.python_result.error then
    { b with error_python := b.error_python ++ [r] }
  else b

/-- One iteration of generate_report's `for result in results` loop:
passed results contribute nothing; failed results contribute their
recorded value differences, missing fields, and error classification. -/
def bucketStep (b : Buckets) (r : TestResult) : Buckets :=
  if r.comparison.passed then b
  else
    errorBucketStep
      { b with
        field_differences :=
          r.comparison.differences.foldl
            (fun fd df =>
              bucketAdd fd df.field ⟨r.console, r.filepath, df.go_value, df.python_value⟩)
            b.field_differences,
        missing_go :=
          r.comparison.missing_in_go.foldl
            (fun m f => bucketAdd m f ⟨r.console, r.filepath⟩) b.missing_go,
        missing_python :=
          r.comparison.missing_in_python.foldl
            (fun m f => bucketAdd m f ⟨r.console, r.filepath⟩) b.missing_python }
      r

/-- Empty buckets. -/
def emptyBuckets : Buckets :=
  { field_differences := [], missing_go := [], missing_python := [],
    error_go := [], error_python := [], error_both := [] }

/-- The aggregate part of the detailed report (summary statistics plus
buckets). Real division in `success_rate` is modelled over the rationals. -/
structure Report where
  total_tests : Nat
  passed_tests : Nat
  failed_tests : Nat
  success_rate : ℚ
  buckets : Buckets
deriving DecidableEq

/-- Pure aggregation performed by generate_report before any rendering:
totals, the guarded success rate, and the failure buckets. -/
def aggregate_results (results : List TestResult) : Report :=
  let total := results.length
  let passed := results.countP (fun r => r.comparison.passed)
  { total_tests := total, passed_tests := passed, failed_tests := total - passed,
    success_rate := if total > 0 then (passed : ℚ) / (total : ℚ) * 100 else 0,
    buckets := results.foldl bucketStep emptyBuckets }

/-- generate_report as observed by its caller: the human-readable summary
interpolates `passed_tests/total_tests*100` without a zero guard, so on an
empty result list the function raises ZeroDivisionError instead of
returning the report it aggregated. -/
def generate_report (results : List TestResult) : Except String Report :=
  let rep := aggregate_results results
  if results.length = 0 then Except.error "ZeroDivisionError" else Except.ok rep

/-- Exit status chosen by main in run_comparison_tests.py once setup has
succeeded: 1 when no tests ran, 1 when the report counts any failed test
(or when report generation raises), 0 otherwise. -/
def main_exit (results : List TestResult) : Nat :=
  if results.isEmpty then 1
  else
    match generate_report results with
    | Except.error _ => 1
    | Except.ok rep => if rep.failed_tests > 0 then 1 else 0

/-- Exit status of the batch mode of compare_outputs.py: 0 exactly when
every per-file comparison outcome was a pass. -/
def batch_exit (outcomes : List Bool) : Nat :=
  if outcomes.countP (fun b => b) = outcomes.length then 0 else 1

/-! ## Fixture synthesis (create_test_samples.py) -/

/-- Image buffers are byte functions; the image size is tracked separately.
A write of a byte list at an offset (`data[a:b] = bytes`). -/
def writeBytes (f : Nat → Nat) (off : Nat) (bs : List Nat) : Nat → Nat :=
  fun i => if off ≤ i ∧ i < off + bs.length then bs.getD (i - off) 0 else f i

/-- A single-byte write (`data[i] = v`). -/
def writeByte (f : Nat → Nat) (idx v : Nat) : Nat → Nat :=
  fun j => if j = idx then v else f j

/-- A fresh zero-filled bytearray. -/
def zeroBuf : Nat → Nat := fun _ => 0

/-- Python `bytes.ljust(n, pad)`. -/
def ljust (bs : List Nat) (n pad : Nat) : List Nat :=
  bs ++ List.replicate (n - bs.length) pad

/-- Byte values of an ASCII string literal. -/
def asciiBytes (s : String) : List Nat :=
  s.data.map Char.toNat

/-- Masking by `& 0xFFFF` (for a nonnegative value, reduction mod 0x10000). -/
def word16 (x : Nat) : Nat := x % 0x10000

/-- The SNES complement computation `(0xFFFF - checksum) & 0xFFFF`. -/
def complement16 (x : Nat) : Nat := (0xFFFF - x) % 0x10000

/-- Python `struct.pack('<H', x)` for `x < 65536`. -/
def packLE16 (x : Nat) : List Nat :=
  [x % 256, x / 256 % 256]

/-- Python `struct.pack('>H', x)` for `x < 65536`. -/
def packBE16 (x : Nat) : List Nat :=
  [x / 256 % 256, x % 256]

/-- Reading a 16-bit little-endian value back from two adjacent bytes. -/
def readLE16 (f : Nat → Nat) (i : Nat) : Nat := f i + 256 * f (i + 1)

/-- Reading a 16-bit big-endian value back from two adjacent bytes. -/
def readBE16 (f : Nat → Nat) (i : Nat) : Nat := 256 * f i + f (i + 1)

/-- Python `sum(data)` for an image of size `n`: iterate over all indices in
order and add the bytes. -/
def bufSum (f : Nat → Nat) (n : Nat) : Nat :=
  ((List.range n).map f).sum

/-- A copy of an image with one index interval forced to zero (used to state
a checksum over an image with the checksum's own slot excluded). -/
def excludeRange (f : Nat → Nat) (a b : Nat) : Nat → Nat :=
  fun i => if a ≤ i ∧ i < b then 0 else f i

/-! ### SNES sample (create_snes_sample) -/

/-- Size of the SNES sample image (1 MB). -/
def snesSize : Nat := 0x100000

/-- Title bytes: `b"TEST GAME".ljust(21, b' ')`. -/
def snes_title : List Nat := ljust (asciiBytes "TEST GAME") 21 0x20

/-- The SNES image after all header writes except the checksum-complement
and checksum slots (source lines up to the checksum computation): title at
0x7FC0, then ROM makeup 0x20, cartridge type 0x00, ROM size 0x0A, RAM size
0x00, country 0x01, developer 0x00, version 0x00. -/
def snes_data_pre : Nat → Nat :=
  writeByte
    (writeByte
      (writeByte
        (writeByte
          (writeByte
            (writeByte
              (writeByte (writeBytes zeroBuf 0x7FC0 snes_title) (0x7FC0 + 21) 0x20)
              (0x7FC0 + 22) 0x00)
            (0x7FC0 + 23) 0x0A)
          (0x7FC0 + 24) 0x00)
        (0x7FC0 + 25) 0x01)
      (0x7FC0 + 26) 0x00)
    (0x7FC0 + 27) 0x00

/-- The `checksum = sum(data) & 0xFFFF` computed by create_snes_sample, over
the buffer as it stands at that point (checksum slots still zero). -/
def snes_checksum : Nat := word16 (bufSum snes_data_pre snesSize)

/-- The `complement = (0xFFFF - checksum) & 0xFFFF`. -/
def snes_complement : Nat := complement16 snes_checksum

/-- The finished SNES image: complement stored little-endian at 0x7FDC,
checksum stored little-endian at 0x7FDE. -/
def snes_data : Nat → Nat :=
  writeBytes (writeBytes snes_data_pre (0x7FC0 + 28) (packLE16 snes_complement))
    (0x7FC0 + 30) (packLE16 snes_checksum)

/-- The complement read back, little-endian, from the written buffer. -/
def snes_storedComplement : Nat := readLE16 snes_data 0x7FDC

/-- The checksum read back, little-endian, from the written buffer. -/
def snes_storedChecksum : Nat := readLE16 snes_data 0x7FDE

/-! ### GB sample (create_gb_sample) -/

/-- Size of the GB sample image (32 KB). -/
def gbSize : Nat := 0x8000

/-- Entry-point bytes written at 0x100. -/
def gb_entry : List Nat := [0x00, 0xc3, 0x50, 0x01]

/-- Nintendo logo bytes written at 0x104. -/
def gb_logo : List Nat :=
  [0xCE, 0xED, 0x66, 0x66, 0xCC, 0x0D, 0x00, 0x0B, 0x03, 0x73, 0x00, 0x83,
   0x00, 0x0C, 0x00, 0x0D, 0x00, 0x08, 0x11, 0x1F, 0x88, 0x89, 0x00, 0x0E,
   0xDC, 0xCC, 0x6E, 0xE6, 0xDD, 0xDD, 0xD9, 0x99, 0xBB, 0xBB, 0x67, 0x63,
   0x6E, 0x0E, 0xEC, 0xCC, 0xDD, 0xDC, 0x99, 0x9F, 0xBB, 0xB9, 0x33, 0x3E]

/-- Title bytes: `b"TEST GAME".ljust(11, b'\x00')`. -/
def gb_title : List Nat := ljust (asciiBytes "TEST GAME") 11 0x00

/-- The GB image after every header write up to (and excluding) the header
checksum: entry point, logo, title, manufacturer code, CGB flag, new
licensee code "01", SGB flag, cartridge type, ROM size, RAM size,
destination code 0x01, old licensee code 0x33, ROM version. -/
def gb_data_pre : Nat → Nat :=
  writeByte
    (writeByte
      (writeByte
        (writeByte
          (writeByte
            (writeByte
              (writeByte
                (writeBytes
                  (writeByte
                    (writeBytes
                      (writeBytes
                        (writeBytes (writeBytes zeroBuf 0x100 gb_entry) 0x104 gb_logo)
                        0x134 gb_title)
                      0x13F [0x00, 0x00, 0x00, 0x00])
                    0x143 0x00)
                  0x144 [0x30, 0x31])
                0x146 0x00)
              0x147 0x00)
            0x148 0x00)
          0x149 0x00)
        0x14A 0x01)
      0x14B 0x33)
    0x14C 0x00

/-- One step of the rolling-complement loop,
`checksum = (checksum - data[i] - 1) & 0xFF`. Every byte read from the
bytearray lies in `[0, 255]`, and two's-complement masking of the possibly
negative Python value by `0xFF` equals adding 512 before reducing mod 256. -/
def gbStep (acc b : Nat) : Nat := (acc + 512 - b % 256 - 1) % 256

/-- The header checksum: the rolling complement over `range(0x134, 0x14D)`
starting from 0. -/
def gb_header_checksum : Nat :=
  (List.range (0x14D - 0x134)).foldl (fun acc k => gbStep acc (gb_data_pre (0x134 + k))) 0

/-- The GB image with the header checksum stored at 0x14D. -/
def gb_data_hc : Nat → Nat := writeByte gb_data_pre 0x14D gb_header_checksum

/-- The global checksum: the sum of every byte of the image except indices
0x14E and 0x14F, masked by 0xFFFF at the end. -/
def gb_global_checksum : Nat :=
  word16 (bufSum (fun i => if i = 0x14E ∨ i = 0x14F then 0 else gb_data_hc i) gbSize)

/-- The finished GB image: global checksum stored big-endian at 0x14E. -/
def gb_data : Nat → Nat := writeBytes gb_data_hc 0x14E (packBE16 gb_global_checksum)

/-- The rolling complement recomputed over an arbitrary image's
title-through-version range (0x134 through 0x14C inclusive). -/
def gb_recomputed_header_checksum (f : Nat → Nat) : Nat :=
  (List.range (0x14D - 0x134)).foldl (fun acc k => gbStep acc (f (0x134 + k))) 0

/-- The global checksum recomputed over an arbitrary image, excluding its
own two-byte slot. -/
def gb_recomputed_global_checksum (f : Nat → Nat) : Nat :=
  word16 (bufSum (fun i => if i = 0x14E ∨ i = 0x14F then 0 else f i) gbSize)

/-! ## Helper lemmas: buffers and 16-bit packing -/

set_option maxRecDepth 8000

/-- Iterating `sum` over the index list agrees with the finite-set sum. -/
theorem bufSum_eq_finsetSum (f : Nat → Nat) (n : Nat) :
    bufSum f n = ∑ i in Finset.range n, f i := rfl

/-- Pointwise-equal images have equal byte sums. -/
theorem bufSum_congr (f g : Nat → Nat) (n : Nat) (h : ∀ i, f i = g i) :
    bufSum f n = bufSum g n := by
  rw [bufSum_eq_finsetSum, bufSum_eq_finsetSum]
  exact Finset.sum_congr rfl (fun i _ => h i)

/-- A sum over four shifted indices, spelled out. -/
theorem sum_shift_four (f : Nat → Nat) (a : Nat) :
    ∑ i in Finset.range 4, f (a + i) =
      f (a + 0) + (f (a + 1) + (f (a + 2) + (f (a + 3) + 0))) :=
  (bufSum_eq_finsetSum (fun i => f (a + i)) 4).symm.trans rfl

/-- A buffer sum splits into the sum with an interval zeroed plus the sum
over that interval. -/
theorem sum_split (f : Nat → Nat) (a b n : Nat) (hbn : b ≤ n) :
    bufSum f n =
      bufSum (excludeRange f a b) n + ∑ i in Finset.range (b - a), f (a + i) := by
  rw [bufSum_eq_finsetSum, bufSum_eq_finsetSum, ← Finset.sum_Ico_eq_sum_range f a b]
  have hsplit : ∀ i ∈ Finset.range n,
      f i = excludeRange f a b i + (if a ≤ i ∧ i < b then f i else 0) := by
    intro i _
    unfold excludeRange
    split_ifs with h
    · omega
    · omega
  rw [Finset.sum_congr rfl hsplit, Finset.sum_add_distrib]
  congr 1
  have hsub : Finset.Ico a b ⊆ Finset.range n := by
    intro x hx
    rw [Finset.mem_Ico] at hx
    rw [Finset.mem_range]
    omega
  have h2 : ∑ i in Finset.Ico a b, (if a ≤ i ∧ i < b then f i else 0) =
      ∑ i in Finset.range n, (if a ≤ i ∧ i < b then f i else 0) :=
    Finset.sum_subset hsub (by
      intro x _ hx
      rw [Finset.mem_Ico] at hx
      rw [if_neg hx])
  have h3 : ∑ i in Finset.Ico a b, (if a ≤ i ∧ i < b then f i else 0) =
      ∑ i in Finset.Ico a b, f i :=
    Finset.sum_congr rfl (fun i hi => by rw [Finset.mem_Ico] at hi; rw [if_pos hi])
  rw [← h2, h3]

/-- A multi-byte write, read inside its range. -/
theorem writeBytes_in (f : Nat → Nat) (off : Nat) (bs : List Nat) (i : Nat)
    (h : off ≤ i ∧ i < off + bs.length) : writeBytes f off bs i = bs.getD (i - off) 0 :=
  if_pos h

/-- A multi-byte write leaves indices outside its range unchanged. -/
theorem writeBytes_out (f : Nat → Nat) (off : Nat) (bs : List Nat) (i : Nat)
    (h : ¬(off ≤ i ∧ i < off + bs.length)) : writeBytes f off bs i = f i := if_neg h

/-- A single-byte write leaves other indices unchanged. -/
theorem writeByte_out (f : Nat → Nat) (idx v i : Nat) (h : ¬i = idx) :
    writeByte f idx v i = f i := if_neg h

/-- An excluded index reads as zero. -/
theorem excludeRange_in (f : Nat → Nat) (a b i : Nat) (h : a ≤ i ∧ i < b) :
    excludeRange f a b i = 0 := if_pos h

/-- A non-excluded index reads from the underlying image. -/
theorem excludeRange_out (f : Nat → Nat) (a b i : Nat) (h : ¬(a ≤ i ∧ i < b)) :
    excludeRange f a b i = f i := if_neg h

/-- Unfolding of the 16-bit mask. -/
theorem word16_eq (x : Nat) : word16 x = x % 0x10000 := rfl

/-- The 16-bit mask is bounded. -/
theorem word16_lt (x : Nat) : word16 x < 0x10000 := by
  rw [word16_eq]
  omega

/-- Unfolding of the complement computation. -/
theorem complement16_eq (x : Nat) : complement16 x = (0xFFFF - x) % 0x10000 := rfl

/-- Unfolding of the little-endian read-back. -/
theorem readLE16_eq (f : Nat → Nat) (i : Nat) : readLE16 f i = f i + 256 * f (i + 1) := rfl

/-- Unfolding of the big-endian read-back. -/
theorem readBE16_eq (f : Nat → Nat) (i : Nat) : readBE16 f i = 256 * f i + f (i + 1) := rfl

/-- Length of a packed little-endian 16-bit value. -/
theorem packLE16_length (x : Nat) : (packLE16 x).length = 2 := rfl

/-- Low byte of a packed little-endian 16-bit value. -/
theorem packLE16_getD0 (x : Nat) : (packLE16 x).getD 0 0 = x % 256 := rfl

/-- High byte of a packed little-endian 16-bit value. -/
theorem packLE16_getD1 (x : Nat) : (packLE16 x).getD 1 0 = x / 256 % 256 := rfl

/-- Length of a packed big-endian 16-bit value. -/
theorem packBE16_length (x : Nat) : (packBE16 x).length = 2 := rfl

/-- High byte of a packed big-endian 16-bit value. -/
theorem packBE16_getD0 (x : Nat) : (packBE16 x).getD 0 0 = x / 256 % 256 := rfl

/-- Low byte of a packed big-endian 16-bit value. -/
theorem packBE16_getD1 (x : Nat) : (packBE16 x).getD 1 0 = x % 256 := rfl

/-! ## Helper lemmas: SNES fixture -/

/-- Bytes of the SNES image before the checksum writes are zero outside the
header interval. -/
theorem snes_data_pre_zero (i : Nat) (h : i < 0x7FC0 ∨ 0x7FDC ≤ i) :
    snes_data_pre i = 0 := by
  simp only [snes_data_pre, writeByte, writeBytes, zeroBuf,
    show snes_title.length = 21 from rfl]
  split_ifs <;> omega

/-- Structural unfolding of the checksum slot value. -/
theorem snes_checksum_eq : snes_checksum = word16 (bufSum snes_data_pre snesSize) := rfl

/-- The checksum as a mod-65536 value of the pre-checksum byte sum. -/
theorem snes_checksum_mod : snes_checksum = bufSum snes_data_pre snesSize % 0x10000 :=
  snes_checksum_eq.trans (word16_eq _)

/-- The stored checksum is a 16-bit value. -/
theorem snes_checksum_lt : snes_checksum < 0x10000 := by
  rw [snes_checksum_eq]
  exact word16_lt _

/-- The complement equals 0xFFFF minus the checksum (no wrap-around). -/
theorem snes_complement_val : snes_complement = 0xFFFF - snes_checksum := by
  rw [show snes_complement = complement16 snes_checksum from rfl, complement16_eq]
  have h := snes_checksum_lt
  omega

/-- Structural unfolding of the finished SNES image. -/
theorem snes_data_eq :
    snes_data = writeBytes (writeBytes snes_data_pre (0x7FC0 + 28) (packLE16 snes_complement))
      (0x7FC0 + 30) (packLE16 snes_checksum) := rfl

/-- Byte 0x7FDC of the written image: low byte of the complement. -/
theorem snes_data_7FDC : snes_data 0x7FDC = snes_complement % 256 := by
  rw [snes_data_eq, writeBytes_out, writeBytes_in,
    show (0x7FDC - (0x7FC0 + 28) : Nat) = 0 from rfl, packLE16_getD0]
  · rw [packLE16_length]
    omega
  · rw [packLE16_length]
    omega

/-- Byte 0x7FDD of the written image: high byte of the complement. -/
theorem snes_data_7FDD : snes_data 0x7FDD = snes_complement / 256 % 256 := by
  rw [snes_data_eq, writeBytes_out, writeBytes_in,
    show (0x7FDD - (0x7FC0 + 28) : Nat) = 1 from rfl, packLE16_getD1]
  · rw [packLE16_length]
    omega
  · rw [packLE16_length]
    omega

/-- Byte 0x7FDE of the written image: low byte of the checksum. -/
theorem snes_data_7FDE : snes_data 0x7FDE = snes_checksum % 256 := by
  rw [snes_data_eq, writeBytes_in,
    show (0x7FDE - (0x7FC0 + 30) : Nat) = 0 from rfl, packLE16_getD0]
  rw [packLE16_length]
  omega

/-- Byte 0x7FDF of the written image: high byte of the checksum. -/
theorem snes_data_7FDF : snes_data 0x7FDF = snes_checksum / 256 % 256 := by
  rw [snes_data_eq, writeBytes_in,
    show (0x7FDF - (0x7FC0 + 30) : Nat) = 1 from rfl, packLE16_getD1]
  rw [packLE16_length]
  omega

/-- The complement read back from the buffer is the complement that was
packed. -/
theorem snes_storedComplement_val : snes_storedComplement = snes_complement := by
  rw [show snes_storedComplement = readLE16 snes_data 0x7FDC from rfl, readLE16_eq,
    show (0x7FDC + 1 : Nat) = 0x7FDD from rfl, snes_data_7FDC, snes_data_7FDD]
  have h1 := snes_complement_val
  have h2 := snes_checksum_lt
  omega

/-- The checksum read back from the buffer is the checksum that was packed. -/
theorem snes_storedChecksum_val : snes_storedChecksum = snes_checksum := by
  rw [show snes_storedChecksum = readLE16 snes_data 0x7FDE from rfl, readLE16_eq,
    show (0x7FDE + 1 : Nat) = 0x7FDF from rfl, snes_data_7FDE, snes_data_7FDF]
  have h2 := snes_checksum_lt
  omega

/-- Outside the checksum slots, the written image agrees with the
pre-checksum image. -/
theorem snes_data_out (i : Nat) (h : ¬(0x7FDC ≤ i ∧ i < 0x7FE0)) :
    snes_data i = snes_data_pre i := by
  rw [snes_data_eq, writeBytes_out, writeBytes_out]
  · rw [packLE16_length]
    omega
  · rw [packLE16_length]
    omega

/-- Zeroing the checksum slots of the written image recovers the
pre-checksum image pointwise. -/
theorem snes_exclude_eq_pre (i : Nat) :
    excludeRange snes_data 0x7FDC 0x7FE0 i = snes_data_pre i := by
  by_cases h : 0x7FDC ≤ i ∧ i < 0x7FE0
  · rw [excludeRange_in _ _ _ _ h]
    exact (snes_data_pre_zero i (Or.inr h.1)).symm
  · rw [excludeRange_out _ _ _ _ h]
    exact snes_data_out i h

/-- The byte sum of the written image with the checksum slots excluded
equals the byte sum the checksum was computed from. -/
theorem snes_excluded_sum :
    bufSum (excludeRange snes_data 0x7FDC 0x7FE0) snesSize = bufSum snes_data_pre snesSize :=
  bufSum_congr _ _ _ snes_exclude_eq_pre

/-- The byte sum of the written image exceeds the pre-checksum byte sum by
exactly 0x1FE (the four stored complement/checksum bytes). -/
theorem snes_bufSum_split :
    bufSum snes_data snesSize = bufSum snes_data_pre snesSize + 510 := by
  have h := sum_split snes_data 0x7FDC 0x7FE0 snesSize (by decide)
  rw [show (0x7FE0 - 0x7FDC : Nat) = 4 from rfl, sum_shift_four,
    show (0x7FDC + 0 : Nat) = 0x7FDC from rfl, show (0x7FDC + 1 : Nat) = 0x7FDD from rfl,
    show (0x7FDC + 2 : Nat) = 0x7FDE from rfl, show (0x7FDC + 3 : Nat) = 0x7FDF from rfl,
    snes_data_7FDC, snes_data_7FDD, snes_data_7FDE, snes_data_7FDF,
    snes_excluded_sum] at h
  have h1 := snes_complement_val
  have h2 := snes_checksum_lt
  omega

/-- C4: the claim that the stored SNES complement and checksum satisfy both
storedComplement + storedChecksum = 0xFFFF (mod 0x10000) and
storedChecksum = sum of all bytes of the written buffer (mod 0x10000) is
false: create_snes_sample computes the checksum before the complement and
checksum bytes are stored, so the written buffer's byte sum exceeds the sum
the stored checksum was computed from by 0x1FE. -/
theorem snes_sum_complement_claim_false :
    ¬((snes_storedComplement + snes_storedChecksum) % 0x10000 = 0xFFFF ∧
      snes_storedChecksum = bufSum snes_data snesSize % 0x10000) := by
  intro hcl
  have hB := hcl.2
  rw [snes_storedChecksum_val, snes_checksum_mod, snes_bufSum_split] at hB
  omega

/-- C4 (amended): the stored complement and checksum of the SNES fixture
satisfy storedComplement + storedChecksum = 0xFFFF (mod 0x10000), and the
stored checksum equals the sum of all bytes of the written buffer with the
4-byte complement/checksum slot excluded, modulo 0x10000. -/
theorem snes_sum_complement_amended :
    (snes_storedComplement + snes_storedChecksum) % 0x10000 = 0xFFFF ∧
    snes_storedChecksum =
      bufSum (excludeRange snes_data 0x7FDC 0x7FE0) snesSize % 0x10000 := by
  constructor
  · rw [snes_storedComplement_val, snes_storedChecksum_val, snes_complement_val]
    have h := snes_checksum_lt
    omega
  · rw [snes_storedChecksum_val, snes_excluded_sum, ← snes_checksum_mod]

/-! ## Helper lemmas: GB fixture -/

/-- Structural unfolding of the global checksum. -/
theorem gb_global_checksum_eq :
    gb_global_checksum =
      word16 (bufSum (fun i => if i = 0x14E ∨ i = 0x14F then 0 else gb_data_hc i) gbSize) :=
  rfl

/-- The stored global checksum is a 16-bit value. -/
theorem gb_global_lt : gb_global_checksum < 0x10000 := by
  rw [gb_global_checksum_eq]
  exact word16_lt _

/-- Structural unfolding of the finished GB image. -/
theorem gb_data_eq : gb_data = writeBytes gb_data_hc 0x14E (packBE16 gb_global_checksum) :=
  rfl

/-- Byte 0x14E of the written image: high byte of the global checksum. -/
theorem gb_data_14E : gb_data 0x14E = gb_global_checksum / 256 % 256 := by
  rw [gb_data_eq, writeBytes_in, show (0x14E - 0x14E : Nat) = 0 from rfl, packBE16_getD0]
  rw [packBE16_length]
  omega

/-- Byte 0x14F of the written image: low byte of the global checksum. -/
theorem gb_data_14F : gb_data 0x14F = gb_global_checksum % 256 := by
  rw [gb_data_eq, writeBytes_in, show (0x14F - 0x14E : Nat) = 1 from rfl, packBE16_getD1]
  rw [packBE16_length]
  omega

/-- With its own two-byte slot excluded, the written image sums like the
image before the global-checksum write. -/
theorem gb_mask_congr (i : Nat) :
    (if i = 0x14E ∨ i = 0x14F then 0 else gb_data i) =
    (if i = 0x14E ∨ i = 0x14F then 0 else gb_data_hc i) := by
  by_cases h : i = 0x14E ∨ i = 0x14F
  · rw [if_pos h, if_pos h]
  · rw [if_neg h, if_neg h, gb_data_eq, writeBytes_out]
    rw [packBE16_length]
    omega

/-- C5: in the GB fixture, recomputing the rolling complement
acc = (acc - byte - 1) mod 256, starting from 0, over bytes 0x134 through
0x14C inclusive of the written buffer equals the stored header-checksum
byte at 0x14D; and the stored big-endian 2-byte global checksum equals the
sum of all bytes of the image except its own 2-byte slot, modulo 65536. -/
theorem gb_checksums_confirmed :
    gb_recomputed_header_checksum gb_data = gb_data 0x14D ∧
    readBE16 gb_data 0x14E = gb_recomputed_global_checksum gb_data := by
  constructor
  · decide
  · rw [readBE16_eq, show (0x14E + 1 : Nat) = 0x14F from rfl, gb_data_14E, gb_data_14F]
    have hmask :
        bufSum (fun i => if i = 0x14E ∨ i = 0x14F then 0 else gb_data i) gbSize =
        bufSum (fun i => if i = 0x14E ∨ i = 0x14F then 0 else gb_data_hc i) gbSize :=
      bufSum_congr _ _ _ gb_mask_congr
    rw [show gb_recomputed_global_checksum gb_data =
        word16 (bufSum (fun i => if i = 0x14E ∨ i = 0x14F then 0 else gb_data i) gbSize)
      from rfl, hmask, ← gb_global_checksum_eq]
    have h := gb_global_lt
    omega

/-! ## Helper lemmas: parsing -/

/-- Splitting at the first tab of `key ++ tab ++ value` yields the tab-free
key and the whole remainder. -/
theorem splitFirstTab_append (k v : List Char) (h : '\t' ∉ k) :
    splitFirstTab (k ++ '\t' :: v) = some (k, v) := by
  induction k with
  | nil => rfl
  | cons c cs ih =>
    have hc : ¬c = '\t' := fun hc => h (hc ▸ List.mem_cons_self c cs)
    have hcs : '\t' ∉ cs := fun hm => h (List.mem_cons_of_mem c hm)
    simp only [List.cons_append, splitFirstTab, if_neg hc, List.append_eq, ih hcs]

/-- A line without a tab does not split. -/
theorem splitFirstTab_none (l : List Char) (h : '\t' ∉ l) : splitFirstTab l = none := by
  induction l with
  | nil => rfl
  | cons c cs ih =>
    have hc : ¬c = '\t' := fun hc => h (hc ▸ List.mem_cons_self c cs)
    have hcs : '\t' ∉ cs := fun hm => h (List.mem_cons_of_mem c hm)
    simp only [splitFirstTab, if_neg hc, ih hcs]

/-- Looking up a key immediately after inserting it yields the inserted
value. -/
theorem dictFind_insert (d : List (String × String)) (k v : String) :
    dictFind (dictInsert d k v) k = some v := by
  induction d with
  | nil => simp [dictInsert, dictFind]
  | cons p rest ih =>
    by_cases hp : p.1 = k
    · simp [dictInsert, hp, dictFind]
    · simp [dictInsert, hp, dictFind, ih]

/-- Rebuilding a string from its character data is the identity. -/
theorem String_mk_data (s : String) : String.mk s.data = s := rfl

/-- Data of the concatenation `key ++ tab ++ value`. -/
theorem tab_line_data (k v : String) :
    (k ++ "\t" ++ v).data = k.data ++ '\t' :: v.data := by
  rw [String.data_append, String.data_append]
  simp

/-- A key is in the dict after an insert iff it was there before or is the
inserted key. -/
theorem dictInsert_keys_mem (d : List (String × String)) (k v : String) (x : String) :
    x ∈ (dictInsert d k v).map Prod.fst ↔ x ∈ d.map Prod.fst ∨ x = k := by
  induction d with
  | nil => simp [dictInsert]
  | cons p rest ih =>
    by_cases hp : p.1 = k
    · subst hp
      simp [dictInsert]
      tauto
    · simp [dictInsert, hp, ih]
      tauto

/-- Inserting into a dict with pairwise-distinct keys keeps the keys
pairwise distinct. -/
theorem dictInsert_keys_nodup (d : List (String × String)) (k v : String)
    (h : (d.map Prod.fst).Nodup) : ((dictInsert d k v).map Prod.fst).Nodup := by
  induction d with
  | nil => simp [dictInsert]
  | cons p rest ih =>
    rw [List.map_cons, List.nodup_cons] at h
    by_cases hp : p.1 = k
    · simp only [dictInsert, if_pos hp, List.map_cons, List.nodup_cons]
      exact ⟨hp ▸ h.1, h.2⟩
    · simp only [dictInsert, if_neg hp, List.map_cons, List.nodup_cons]
      refine ⟨?_, ih h.2⟩
      rw [dictInsert_keys_mem]
      rintro (hm | hm)
      · exact h.1 hm
      · exact hp hm

/-- One parse-loop step preserves distinctness of the keys. -/
theorem processLine_keys_nodup (d : List (String × String)) (line : String)
    (h : (d.map Prod.fst).Nodup) : ((processLine d line).map Prod.fst).Nodup := by
  unfold processLine
  cases hs : splitFirstTab line.data with
  | none => exact h
  | some kv => exact dictInsert_keys_nodup d _ _ h

/-- The parse loop preserves distinctness of the keys from any starting
dict. -/
theorem foldl_processLine_keys_nodup (lines : List String) (d : List (String × String))
    (h : (d.map Prod.fst).Nodup) :
    ((lines.foldl processLine d).map Prod.fst).Nodup := by
  induction lines generalizing d with
  | nil => exact h
  | cons line rest ih =>
    rw [List.foldl_cons]
    exact ih _ (processLine_keys_nodup d line h)

/-- C10: the output parser splits each line at its first tab only (so the
value may itself contain tabs), silently skips any line without a tab, maps
a key repeated on several lines to the value of its last occurrence, and
produces a FieldMap whose keys are pairwise distinct; on the sample text
with a repeated key, a separator-free line and a tab inside a value, the
parse keeps only the last binding with the tabs preserved in the value. -/
theorem parse_output_spec :
    (∀ (d : List (String × String)) (k v : String), '\t' ∉ k.data →
        processLine d (k ++ "\t" ++ v) = dictInsert d k v) ∧
    (∀ (d : List (String × String)) (line : String), '\t' ∉ line.data →
        processLine d line = d) ∧
    (∀ (prev : List String) (k v : String), '\t' ∉ k.data →
        dictFind (parse_lines (prev ++ [k ++ "\t" ++ v])) k = some v) ∧
    (∀ lines : List String, ((parse_lines lines).map Prod.fst).Nodup) ∧
    parse_output "Key\tv1\nnoseparator\nKey\tv2\twith\ttabs" = [("Key", "v2\twith\ttabs")] := by
  have hline : ∀ (d : List (String × String)) (k v : String), '\t' ∉ k.data →
      processLine d (k ++ "\t" ++ v) = dictInsert d k v := by
    intro d k v hk
    unfold processLine
    rw [tab_line_data, splitFirstTab_append k.data v.data hk]
  refine ⟨hline, ?_, ?_, ?_, by decide⟩
  · intro d line hl
    unfold processLine
    rw [splitFirstTab_none line.data hl]
  · intro prev k v hk
    unfold parse_lines
    rw [List.foldl_append]
    rw [show List.foldl processLine (List.foldl processLine [] prev) [k ++ "\t" ++ v] =
      processLine (List.foldl processLine [] prev) (k ++ "\t" ++ v) from rfl]
    rw [hline _ _ _ hk, dictFind_insert]
  · intro lines
    exact foldl_processLine_keys_nodup lines [] (by simp)

/-- C6 (counterexample): neither runner passes a timeout to its
subprocess.run call, so no invocation is subject to a bounded wait. -/
theorem runner_timeout_claim_false :
    enforcesBoundedWait run_command_args = false ∧
    enforcesBoundedWait compare_outputs_run_args = false := by
  constructor <;> rfl

/-- C6 (amended): both runners invoke subprocess.run with the timeout
parameter omitted (Python default None), so the harness waits indefinitely
for process completion and never records a timeout error. -/
theorem runner_no_timeout :
    run_command_args.timeoutSeconds = none ∧
    compare_outputs_run_args.timeoutSeconds = none := by
  constructor <;> rfl

/-- C8: aggregating zero test cases produces totals of zero with
success_rate 0 and empty buckets, but generate_report itself raises
ZeroDivisionError while rendering the human-readable summary instead of
returning that report. -/
theorem empty_results_report :
    aggregate_results [] =
      { total_tests := 0, passed_tests := 0, failed_tests := 0, success_rate := 0,
        buckets := emptyBuckets } ∧
    generate_report [] = Except.error "ZeroDivisionError" := by
  constructor <;> rfl

/-! ## Helper lemmas: normalization and comparison -/

/-- C3: normalize_value applies exactly the spec's rules in order — trim
surrounding whitespace; map a case-insensitive empty, "none" or "null" to
the sentinel "None"; lower-case a trimmed value beginning with "0x"; pass
every other value through trimmed but otherwise unchanged — and
consequently "USA" versus "usa" normalize to distinct values and the
comparison reports the pair as a value divergence. -/
theorem normalize_value_spec :
    (∀ s, normalize_value s = normalize_spec s) ∧
    normalize_value "USA" ≠ normalize_value "usa" ∧
    (compare_results ⟨none, [("Region", "USA")]⟩ ⟨none, [("Region", "usa")]⟩).differences =
      [⟨"Region", "USA", "usa"⟩] ∧
    (compare_results ⟨none, [("Region", "USA")]⟩ ⟨none, [("Region", "usa")]⟩).passed =
      false := by
  refine ⟨?_, by decide, by decide, by decide⟩
  intro s
  simp only [normalize_value, normalize_spec]
  have hmem : pyLower (pyStrip s) ∈ ["", "none", "null"] ↔
      (pyLower (pyStrip s) = "" ∨ pyLower (pyStrip s) = "none" ∨
        pyLower (pyStrip s) = "null") := by
    simp
  by_cases h1 : pyLower (pyStrip s) ∈ ["", "none", "null"]
  · rw [if_pos h1, if_pos (hmem.mp h1)]
  · rw [if_neg h1, if_neg (fun hc => h1 (hmem.mpr hc))]

/-- Full characterization of the compare_results field loop: the fold
appends exactly the fields matching each record condition, and the passed
flag survives exactly when every field satisfies the per-field success
condition. -/
theorem foldl_compareStep (go py : List (String × String)) (fs : List String)
    (c : Comparison) :
    fs.foldl (compareStep go py) c =
      { passed := c.passed && fs.all (stepOk go py),
        differences := c.differences ++ (fs.filter (diffPred go py)).map (mkDiff go py),
        missing_in_go := c.missing_in_go ++ fs.filter (goMissing go),
        missing_in_python := c.missing_in_python ++ fs.filter (pyMissing go py),
        go_error := c.go_error, python_error := c.python_error } := by
  induction fs generalizing c with
  | nil => simp
  | cons f fs ih =>
    rw [List.foldl_cons, ih]
    by_cases h1 : dictMem go f = false
    · simp [compareStep, h1, stepOk, diffPred, goMissing, pyMissing, mkDiff,
        List.filter_cons, List.all_cons, List.append_assoc]
    · rw [Bool.not_eq_false] at h1
      by_cases h2 : dictMem py f = false
      · simp [compareStep, h1, h2, stepOk, diffPred, goMissing, pyMissing, mkDiff,
          List.filter_cons, List.all_cons, List.append_assoc]
      · rw [Bool.not_eq_false] at h2
        by_cases h3 : (normalize_value (dictGet go f "") ==
            normalize_value (dictGet py f "")) = false
        · simp [compareStep, h1, h2, h3, stepOk, diffPred, goMissing, pyMissing, mkDiff,
            List.filter_cons, List.all_cons, List.append_assoc]
        · rw [Bool.not_eq_false] at h3
          simp [compareStep, h1, h2, h3, stepOk, diffPred, goMissing, pyMissing, mkDiff,
            List.filter_cons, List.all_cons, List.append_assoc]

/-- In the error-free branch, compare_results is exactly the filter-based
record. -/
theorem compare_results_no_error (g p : RunResult) (hg : pyTruthy g.error = false)
    (hp : pyTruthy p.error = false) :
    compare_results g p =
      { passed := (allFields g.fields p.fields).all (stepOk g.fields p.fields),
        differences := ((allFields g.fields p.fields).filter
          (diffPred g.fields p.fields)).map (mkDiff g.fields p.fields),
        missing_in_go := (allFields g.fields p.fields).filter (goMissing g.fields),
        missing_in_python := (allFields g.fields p.fields).filter
          (pyMissing g.fields p.fields),
        go_error := g.error, python_error := p.error } := by
  unfold compare_results
  rw [hg, hp]
  simp only [Bool.false_and, Bool.false_or, Bool.false_eq_true, not_false_eq_true,
    if_false]
  rw [foldl_compareStep]
  simp

/-- In an error branch, compare_results fails immediately with empty lists. -/
theorem compare_results_error (g p : RunResult)
    (h : pyTruthy g.error = true ∨ pyTruthy p.error = true) :
    compare_results g p =
      { passed := false, differences := [], missing_in_go := [], missing_in_python := [],
        go_error := g.error, python_error := p.error } := by
  unfold compare_results
  cases hg : pyTruthy g.error <;> cases hp : pyTruthy p.error <;>
    simp_all

/-- A falsy error slot is exactly an absent error, given that the harness
never stores an empty error message. -/
theorem pyTruthy_false_iff (e : Option String) (he : ∀ s, e = some s → s ≠ "") :
    pyTruthy e = false ↔ e = none := by
  cases e with
  | none => simp [pyTruthy]
  | some s =>
    obtain ⟨data⟩ := s
    cases data with
    | nil => exact absurd rfl (he (String.mk []) rfl)
    | cons c cs => simp [pyTruthy]

/-- Membership test of the model dict agrees with key membership. -/
theorem dictMem_iff (m : List (String × String)) (f : String) :
    dictMem m f = true ↔ f ∈ m.map Prod.fst := by
  induction m with
  | nil => simp [dictMem, dictFind]
  | cons p rest ih =>
    by_cases hp : p.1 = f
    · simp [dictMem, dictFind, hp]
    · have hskip : dictMem (p :: rest) f = dictMem rest f := by
        simp [dictMem, dictFind, hp]
      rw [hskip, ih, List.map_cons, List.mem_cons]
      constructor
      · exact Or.inr
      · rintro (h | h)
        · exact absurd h.symm hp
        · exact h

/-- Every field in the union set is present on at least one side. -/
theorem mem_allFields (go py : List (String × String)) (f : String)
    (h : f ∈ allFields go py) : dictMem go f = true ∨ dictMem py f = true := by
  unfold allFields at h
  rw [List.mem_dedup, List.mem_append] at h
  cases h with
  | inl h => exact Or.inl ((dictMem_iff go f).mpr h)
  | inr h => exact Or.inr ((dictMem_iff py f).mpr h)

/-- The loop's passed flag survives exactly when no condition fires on any
field. -/
theorem allOk_iff_filters_nil (go py : List (String × String)) (fs : List String) :
    fs.all (stepOk go py) = true ↔
      (fs.filter (diffPred go py) = [] ∧ fs.filter (goMissing go) = [] ∧
        fs.filter (pyMissing go py) = []) := by
  rw [List.all_eq_true, List.filter_eq_nil_iff, List.filter_eq_nil_iff,
    List.filter_eq_nil_iff]
  constructor
  · intro hall
    refine ⟨?_, ?_, ?_⟩ <;> intro f hf <;> have hok := hall f hf <;> revert hok <;>
      simp only [stepOk, diffPred, goMissing, pyMissing] <;>
      cases dictMem go f <;> cases dictMem py f <;>
      cases (normalize_value (dictGet go f "") == normalize_value (dictGet py f "")) <;>
      simp
  · intro hnone f hf
    have h1 := hnone.1 f hf
    have h2 := hnone.2.1 f hf
    have h3 := hnone.2.2 f hf
    revert h1 h2 h3
    simp only [stepOk, diffPred, goMissing, pyMissing]
    cases dictMem go f <;> cases dictMem py f <;>
    cases (normalize_value (dictGet go f "") == normalize_value (dictGet py f "")) <;>
    simp

/-- C2: when at least one side's error slot is set (one-sided or
both-sided), the comparison is an immediate failure with no field-level
diffing: passed is false and all three difference and missing-field lists
are empty. -/
theorem error_comparison_immediate_failure (g p : RunResult)
    (h : pyTruthy g.error = true ∨ pyTruthy p.error = true) :
    (compare_results g p).passed = false ∧
    (compare_results g p).differences = [] ∧
    (compare_results g p).missing_in_go = [] ∧
    (compare_results g p).missing_in_python = [] := by
  rw [compare_results_error g p h]
  exact ⟨rfl, rfl, rfl, rfl⟩

/-- C2 witness at a concrete one-sided error. -/
theorem error_comparison_immediate_failure_witness :
    (compare_results ⟨some "Command failed: boom", []⟩
        ⟨none, [("Title", "TEST GAME")]⟩).passed = false ∧
    (compare_results ⟨some "Command failed: boom", []⟩
        ⟨none, [("Title", "TEST GAME")]⟩).differences = [] ∧
    (compare_results ⟨some "Command failed: boom", []⟩
        ⟨none, [("Title", "TEST GAME")]⟩).missing_in_go = [] ∧
    (compare_results ⟨some "Command failed: boom", []⟩
        ⟨none, [("Title", "TEST GAME")]⟩).missing_in_python = [] :=
  error_comparison_immediate_failure _ _ (Or.inl (by decide))

/-- C1: the comparison reports passed exactly when both runs completed
without error and the computed difference and missing-field lists are all
empty; in particular, two error-free results whose FieldMaps are identical
after normalization (same key membership and equal normalized values)
always pass with empty lists. -/
theorem comparison_passed_iff (g p : RunResult)
    (hg : ∀ s, g.error = some s → s ≠ "") (hp : ∀ s, p.error = some s → s ≠ "") :
    ((compare_results g p).passed = true ↔
      (g.error = none ∧ p.error = none ∧
        (compare_results g p).differences = [] ∧
        (compare_results g p).missing_in_go = [] ∧
        (compare_results g p).missing_in_python = [])) ∧
    (g.error = none → p.error = none →
      (∀ k, dictMem g.fields k = dictMem p.fields k) →
      (∀ k, normalize_value (dictGet g.fields k "") =
        normalize_value (dictGet p.fields k "")) →
      (compare_results g p).passed = true ∧
      (compare_results g p).differences = [] ∧
      (compare_results g p).missing_in_go = [] ∧
      (compare_results g p).missing_in_python = []) := by
  by_cases hge : pyTruthy g.error = false
  · by_cases hpe : pyTruthy p.error = false
    · -- error-free branch
      have hgn := (pyTruthy_false_iff g.error hg).mp hge
      have hpn := (pyTruthy_false_iff p.error hp).mp hpe
      rw [compare_results_no_error g p hge hpe]
      simp only [List.map_eq_nil_iff]
      constructor
      · rw [allOk_iff_filters_nil]
        constructor
        · intro hok
          exact ⟨hgn, hpn, hok.1, hok.2.1, hok.2.2⟩
        · intro hok
          exact ⟨hok.2.2.1, hok.2.2.2.1, hok.2.2.2.2⟩
      · intro _ _ hmem hval
        have hall : (allFields g.fields p.fields).all (stepOk g.fields p.fields) = true := by
          rw [List.all_eq_true]
          intro f hf
          have hboth : dictMem g.fields f = true ∧ dictMem p.fields f = true := by
            cases mem_allFields g.fields p.fields f hf with
            | inl hm => exact ⟨hm, (hmem f) ▸ hm⟩
            | inr hm => exact ⟨(hmem f).symm ▸ hm, hm⟩
          unfold stepOk
          rw [hboth.1, hboth.2, hval f]
          simp
        rw [allOk_iff_filters_nil] at hall
        exact ⟨by rw [allOk_iff_filters_nil]; exact hall, hall.1, hall.2.1, hall.2.2⟩
    · -- python-side error
      rw [Bool.not_eq_false] at hpe
      have hrec := compare_results_error g p (Or.inr hpe)
      have hpn : ¬p.error = none := by
        intro hn
        rw [hn] at hpe
        exact absurd hpe (by simp [pyTruthy])
      rw [hrec]
      constructor
      · simp only [Bool.false_eq_true, false_iff]
        intro hc
        exact hpn hc.2.1
      · intro _ hn
        exact absurd hn hpn
  · -- go-side error
    rw [Bool.not_eq_false] at hge
    have hrec := compare_results_error g p (Or.inl hge)
    have hgn : ¬g.error = none := by
      intro hn
      rw [hn] at hge
      exact absurd hge (by simp [pyTruthy])
    rw [hrec]
    constructor
    · simp only [Bool.false_eq_true, false_iff]
      intro hc
      exact hgn hc.1
    · intro hn
      exact absurd hn hgn

/-- C1 witness: two identical error-free results pass with empty lists. -/
theorem comparison_passed_iff_witness :
    (compare_results ⟨none, [("Title", "TEST GAME")]⟩
        ⟨none, [("Title", "TEST GAME")]⟩).passed = true ∧
    (compare_results ⟨none, [("Title", "TEST GAME")]⟩
        ⟨none, [("Title", "TEST GAME")]⟩).differences = [] :=
  have h := (comparison_passed_iff ⟨none, [("Title", "TEST GAME")]⟩
      ⟨none, [("Title", "TEST GAME")]⟩
      (fun s hs => by cases hs) (fun s hs => by cases hs)).2
    rfl rfl (fun k => rfl) (fun k => rfl)
  ⟨h.1, h.2.1⟩

/-- C7: when the candidate (Go) process exits non-zero, the recorded error
is built from the captured stderr, the field map is empty, the comparison
records no field difference, and in the report the case lands exactly in
the candidate-error bucket while contributing nothing to the field-level
difference buckets. -/
theorem candidate_error_case (rc : Int) (out err : String) (pres : RunResult)
    (console fp : String) (h1 : rc ≠ 0) (h2 : pres.error = none) :
    (run_go_gameid_result rc out err).error = some ("Command failed: " ++ err) ∧
    (run_go_gameid_result rc out err).fields = [] ∧
    (compare_results (run_go_gameid_result rc out err) pres).differences = [] ∧
    (aggregate_results [⟨console, fp, run_go_gameid_result rc out err, pres,
        compare_results (run_go_gameid_result rc out err) pres⟩]).buckets.error_go =
      [⟨console, fp, run_go_gameid_result rc out err, pres,
        compare_results (run_go_gameid_result rc out err) pres⟩] ∧
    (aggregate_results [⟨console, fp, run_go_gameid_result rc out err, pres,
        compare_results (run_go_gameid_result rc out err) pres⟩]).buckets.error_python =
      [] ∧
    (aggregate_results [⟨console, fp, run_go_gameid_result rc out err, pres,
        compare_results (run_go_gameid_result rc out err) pres⟩]).buckets.error_both =
      [] ∧
    (aggregate_results [⟨console, fp, run_go_gameid_result rc out err, pres,
        compare_results (run_go_gameid_result rc out err) pres⟩]).buckets.field_differences =
      [] := by
  have hg_err : (run_go_gameid_result rc out err).error =
      some ("Command failed: " ++ err) := by
    unfold run_go_gameid_result
    rw [if_pos h1]
  have hg_fields : (run_go_gameid_result rc out err).fields = [] := by
    unfold run_go_gameid_result
    rw [if_pos h1]
  have hg_truthy : pyTruthy (run_go_gameid_result rc out err).error = true := by
    rw [hg_err]
    show (!("Command failed: " ++ err).data.isEmpty) = true
    rw [String.data_append]
    rfl
  have hp_truthy : pyTruthy pres.error = false := by
    rw [h2]
    rfl
  have hcomp := compare_results_error (run_go_gameid_result rc out err) pres
    (Or.inl hg_truthy)
  refine ⟨hg_err, hg_fields, by rw [hcomp], ?_, ?_, ?_, ?_⟩ <;>
    simp [aggregate_results, bucketStep, hcomp, errorBucketStep, hg_truthy, hp_truthy,
      emptyBuckets]

/-- C7 witness at the spec's scenario: exit code 1 with stderr
"unsupported format" against an error-free reference result. -/
theorem candidate_error_case_witness :
    (run_go_gameid_result 1 "" "unsupported format").error =
      some ("Command failed: " ++ "unsupported format") ∧
    (run_go_gameid_result 1 "" "unsupported format").fields = [] ∧
    (compare_results (run_go_gameid_result 1 "" "unsupported format")
        ⟨none, [("Title", "TEST GAME")]⟩).differences = [] ∧
    (aggregate_results [⟨"GBA", "testdata/gba/test_game.gba",
        run_go_gameid_result 1 "" "unsupported format", ⟨none, [("Title", "TEST GAME")]⟩,
        compare_results (run_go_gameid_result 1 "" "unsupported format")
          ⟨none, [("Title", "TEST GAME")]⟩⟩]).buckets.error_go =
      [⟨"GBA", "testdata/gba/test_game.gba",
        run_go_gameid_result 1 "" "unsupported format", ⟨none, [("Title", "TEST GAME")]⟩,
        compare_results (run_go_gameid_result 1 "" "unsupported format")
          ⟨none, [("Title", "TEST GAME")]⟩⟩] ∧
    (aggregate_results [⟨"GBA", "testdata/gba/test_game.gba",
        run_go_gameid_result 1 "" "unsupported format", ⟨none, [("Title", "TEST GAME")]⟩,
        compare_results (run_go_gameid_result 1 "" "unsupported format")
          ⟨none, [("Title", "TEST GAME")]⟩⟩]).buckets.error_python = [] ∧
    (aggregate_results [⟨"GBA", "testdata/gba/test_game.gba",
        run_go_gameid_result 1 "" "unsupported format", ⟨none, [("Title", "TEST GAME")]⟩,
        compare_results (run_go_gameid_result 1 "" "unsupported format")
          ⟨none, [("Title", "TEST GAME")]⟩⟩]).buckets.error_both = [] ∧
    (aggregate_results [⟨"GBA", "testdata/gba/test_game.gba",
        run_go_gameid_result 1 "" "unsupported format", ⟨none, [("Title", "TEST GAME")]⟩,
        compare_results (run_go_gameid_result 1 "" "unsupported format")
          ⟨none, [("Title", "TEST GAME")]⟩⟩]).buckets.field_differences = [] :=
  candidate_error_case 1 "" "unsupported format" ⟨none, [("Title", "TEST GAME")]⟩
    "GBA" "testdata/gba/test_game.gba" (by decide) rfl

/-- C9: once the harness has run a non-empty set of cases, its exit status
is non-zero exactly when some case failed; likewise the batch mode of
compare_outputs exits non-zero exactly when some comparison outcome was a
failure. -/
theorem harness_exit_nonzero_iff (results : List TestResult) (outcomes : List Bool)
    (h : results ≠ []) :
    (main_exit results ≠ 0 ↔ ∃ r ∈ results, r.comparison.passed = false) ∧
    (batch_exit outcomes ≠ 0 ↔ ∃ b ∈ outcomes, b = false) := by
  constructor
  · cases results with
    | nil => exact absurd rfl h
    | cons r rs =>
      show (if (r :: rs).isEmpty then 1
        else match generate_report (r :: rs) with
          | Except.error _ => 1
          | Except.ok rep => if rep.failed_tests > 0 then 1 else 0) ≠ 0 ↔ _
      rw [show (r :: rs).isEmpty = false from rfl]
      simp only [Bool.false_eq_true, not_false_eq_true, if_neg, if_false]
      unfold generate_report
      rw [if_neg (by simp [aggregate_results])]
      show (if (aggregate_results (r :: rs)).failed_tests > 0 then 1 else 0) ≠ 0 ↔ _
      have hrep : (aggregate_results (r :: rs)).failed_tests =
          (r :: rs).length - List.countP (fun t => t.comparison.passed) (r :: rs) := rfl
      have hle : List.countP (fun t => t.comparison.passed) (r :: rs) ≤ (r :: rs).length :=
        List.countP_le_length _
      rw [hrep]
      split_ifs with hf
      · constructor
        · intro _
          by_contra hno
          push_neg at hno
          have hall : ∀ x ∈ r :: rs, (fun t : TestResult => t.comparison.passed) x = true := by
            intro x hx
            have hnx := hno x hx
            cases hxp : x.comparison.passed
            · exact absurd hxp hnx
            · exact hxp
          have := List.countP_eq_length.mpr hall
          omega
        · intro _
          exact one_ne_zero
      · have hcount : List.countP (fun t => t.comparison.passed) (r :: rs) =
            (r :: rs).length := by omega
        have hall := List.countP_eq_length.mp hcount
        constructor
        · intro h0
          exact absurd rfl h0
        · rintro ⟨x, hx, hpx⟩
          have hbx : x.comparison.passed = true := hall x hx
          rw [hpx] at hbx
          cases hbx
  · unfold batch_exit
    split_ifs with hb
    · have hall := List.countP_eq_length.mp hb
      constructor
      · intro h0
        exact absurd rfl h0
      · rintro ⟨b, hbm, hbf⟩
        have hbb : (fun b : Bool => b) b = true := hall b hbm
        rw [hbf] at hbb
        cases hbb
    · constructor
      · intro _
        by_contra hno
        push_neg at hno
        apply hb
        apply List.countP_eq_length.mpr
        intro b hbm
        have hnb := hno b hbm
        cases hbv : b
        · exact absurd hbv hnb
        · rfl
      · intro _
        exact one_ne_zero

/-- C9 witness: a single failed case exits 1; a single passed batch outcome
exits 0. -/
theorem harness_exit_nonzero_iff_witness :
    main_exit [⟨"GBA", "f", ⟨some "Command failed: x", []⟩, ⟨none, []⟩,
      compare_results ⟨some "Command failed: x", []⟩ ⟨none, []⟩⟩] ≠ 0 ∧
    batch_exit [false] ≠ 0 := by
  have h := harness_exit_nonzero_iff
    [⟨"GBA", "f", ⟨some "Command failed: x", []⟩, ⟨none, []⟩,
      compare_results ⟨some "Command failed: x", []⟩ ⟨none, []⟩⟩] [false]
    (List.cons_ne_nil _ _)
  constructor
  · exact h.1.mpr ⟨_, List.mem_singleton.mpr rfl, by decide⟩
  · exact h.2.mpr ⟨false, List.mem_singleton.mpr rfl, rfl⟩
